import Mathlib

/-
Verification of the MyCash personal finance ledger (src/app.py) against its
natural-language specification.

The embedding is shallow: the Python class MyCash keeps its state in the
field self.records, a list of Record objects; here that state is passed
explicitly as a value of type List Record.  Python integers are modelled as
Int (arbitrary precision in both).  Optional parameters (Python default
None) become Option values, and Python truthiness of an Optional[str]
(falsy when None or when the empty string) and of an Optional[int] (falsy
when None or when 0) is made explicit by strTruthy and intTruthy.
Exceptions (IndexError, the ReadError raised on malformed storage) are
modelled with Except.
-/

namespace MyCash

/-- The Record class of app.py: a plain bag of four fields.  The field
holding the amount is named price in the source. -/
structure Record where
  date : String
  category : String
  price : Int
  description : String
deriving Repr, DecidableEq

/-- The category string literal the source uses for income records
(app.py line 132 compares record.category with this literal; the spec
calls this enum value Income). -/
def Income : String := "Доход"

/-- The category string literal the source uses for expense records
(app.py line 135; the spec calls this enum value Expense). -/
def Expense : String := "Расход"

/-- Python truthiness of an Optional[str] argument: None and the empty
string are falsy, every other string is truthy.  Used by the guards
if date:, if category:, if description: in edit_record and
search_records. -/
def strTruthy : Option String → Bool
  | none => false
  | some s => s != ""

/-- Python truthiness of an Optional[int] argument: None and 0 are falsy,
every other integer is truthy.  Used by the guards if price: in
edit_record and search_records. -/
def intTruthy : Option Int → Bool
  | none => false
  | some p => p != 0

/-- Python list indexing semantics for records[record_id]: a nonnegative
index i is valid when i < n, a negative index i is valid when -i <= n and
then denotes position n - (-i); anything else raises IndexError (here:
none). -/
def pythonIdx (n : Nat) (i : Int) : Option (Fin n) :=
  if h : 0 ≤ i ∧ i.toNat < n then
    some ⟨i.toNat, h.2⟩
  else if h2 : i < 0 ∧ (-i).toNat ≤ n then
    some ⟨n - (-i).toNat, by omega⟩
  else
    none

/-- MyCash.add_record (app.py lines 62-72): appends a new Record built
from the four arguments at the end of self.records.  No validation of any
argument is performed.  (The save_data call that follows touches only the
file, not the in-memory list, and is modelled separately.) -/
def add_record (records : List Record) (date category : String) (price : Int)
    (description : String) : List Record :=
  records.concat ⟨date, category, price, description⟩

/-- MyCash.edit_record (app.py lines 74-100).  First records[record_id] is
evaluated: an invalid index raises IndexError (modelled as Except.error ())
before anything is mutated.  Then each of the four optional parameters
overwrites its field exactly when it is truthy (if date:, if category:,
if price:, if description:).  The mutation of the shared Record object is
modelled by List.set at the resolved position. -/
def edit_record (records : List Record) (record_id : Int)
    (date category : Option String) (price : Option Int)
    (description : Option String) : Except Unit (List Record) :=
  match pythonIdx records.length record_id with
  | none => .error ()
  | some idx =>
      let r0 := records.get idx
      let r1 := if strTruthy date then { r0 with date := date.getD r0.date } else r0
      let r2 := if strTruthy category then { r1 with category := category.getD r1.category } else r1
      let r3 := if intTruthy price then { r2 with price := price.getD r2.price } else r2
      let r4 := if strTruthy description then { r3 with description := description.getD r3.description } else r3
      .ok (records.set idx.val r4)

/-- The contents of self.records after a call to edit_record: on success
the updated list, and when IndexError is raised the list is left exactly
as it was, because the indexing expression records[record_id] is evaluated
before any field assignment. -/
def edit_post (records : List Record) (record_id : Int)
    (date category : Option String) (price : Option Int)
    (description : Option String) : List Record :=
  match edit_record records record_id date category price description with
  | .ok l => l
  | .error _ => records

/-- Auxiliary for str_split, structural recursion over the character
list: splitting an empty text yields one empty piece, a separator opens a
new piece, any other character is consed onto the current first piece. -/
def splitChars (sep : Char) : List Char → List (List Char)
  | [] => [[]]
  | c :: cs =>
      match splitChars sep cs with
      | [] => [[c]]
      | h :: t => if c == sep then [] :: h :: t else (c :: h) :: t

/-- The Python library call text.split(sep) for a one-character separator,
as used by search_records on the dash: the pieces between occurrences of
the separator, in order, empty pieces included, and the empty text yields
the one-element list of the empty piece. -/
def str_split (s : String) (sep : Char) : List String :=
  (splitChars sep s.data).map String.mk

/-- The date criterion test of MyCash.search_records (app.py lines
115-119): both the stored date and the query are split on the dash and
the leading components of the stored date must equal the query components
in order. -/
def datePartsMatch (recordDate query : String) : Bool :=
  let record_date_parts := str_split recordDate '-'
  let input_date_parts := str_split query '-'
  record_date_parts.take input_date_parts.length == input_date_parts

/-- MyCash.search_records (app.py lines 102-123): walks self.records in
order and skips (continue) a record as soon as one of the three guards
fires; a criterion participates only when it is truthy.  Records that pass
every guard are appended to the result in order. -/
def search_records (records : List Record) (category date : Option String)
    (price : Option Int) : List Record :=
  match records with
  | [] => []
  | r :: rest =>
      if strTruthy category && category.getD "" != r.category then
        search_records rest category date price
      else if strTruthy date && !datePartsMatch r.date (date.getD "") then
        search_records rest category date price
      else if intTruthy price && price.getD 0 != r.price then
        search_records rest category date price
      else
        r :: search_records rest category date price

/-- MyCash.display_balance (app.py lines 125-138): income is the sum of
price over records whose category is the Income literal, expense the sum
over records whose category is the Expense literal, and the returned
triple is (income - expense, income, expense). -/
def display_balance (records : List Record) : Int × Int × Int :=
  let income := ((records.filter (fun r => r.category == Income)).map Record.price).sum
  let expense := ((records.filter (fun r => r.category == Expense)).map Record.price).sum
  let balance := income - expense
  (balance, income, expense)

/-- One entry of the persisted JSON array: record.__dict__, an object with
exactly the four fields of Record (app.py line 58).  The JSON text layer
(json.dump with ensure_ascii=False and json.load) is a faithful
serialization of such objects and is not modelled further. -/
structure StoredRecord where
  date : String
  category : String
  price : Int
  description : String
deriving Repr, DecidableEq

/-- record.__dict__ as used by save_data. -/
def Record.toStored (r : Record) : StoredRecord :=
  ⟨r.date, r.category, r.price, r.description⟩

/-- Record(**record) as used by load_data. -/
def StoredRecord.toRecord (s : StoredRecord) : Record :=
  ⟨s.date, s.category, s.price, s.description⟩

/-- The possible states of the persisted storage file seen by load_data:
the file is absent (open raises FileNotFoundError), the file exists but
its content does not decode to a list of well-formed record objects
(json.load or Record(**record) raises, the ReadError of the spec), or the
file holds a well-formed record array. -/
inductive Storage where
  | absent
  | malformed
  | wellFormed (data : List StoredRecord)
deriving DecidableEq

/-- MyCash.save_data (app.py lines 54-60): serializes the full current
sequence, overwriting prior content. -/
def save_data (records : List Record) : Storage :=
  .wellFormed (records.map Record.toStored)

/-- MyCash.load_data (app.py lines 41-52) acting on the in-memory list
records (self.records).  When the file exists and is well formed, each
stored record is APPENDED to the existing list (self.records.append in the
loop); only the FileNotFoundError handler resets the list to [].  A
malformed file raises (ReadError), modelled as Except.error (). -/
def load_data (storage : Storage) (records : List Record) :
    Except Unit (List Record) :=
  match storage with
  | .absent => .ok []
  | .malformed => .error ()
  | .wellFormed data => .ok (records ++ data.map StoredRecord.toRecord)

/-- MyCash.__init__ (app.py lines 31-39) for the record state: a fresh
store starts with self.records = [] and immediately runs load_data on the
storage of the given user. -/
def freshStore (storage : Storage) : Except Unit (List Record) :=
  load_data storage []

/-- Spec-side definition, following the words of the spec: totalIncome is
the sum of amounts of records whose category is Income. -/
def totalIncome (rs : List Record) : Int :=
  ((rs.filter (fun r => r.category == Income)).map Record.price).sum

/-- Spec-side definition, following the words of the spec: totalExpense is
the sum of amounts of records whose category is Expense. -/
def totalExpense (rs : List Record) : Int :=
  ((rs.filter (fun r => r.category == Expense)).map Record.price).sum

/-- Spec-side search predicate, following the words of the spec: a record
matches when every supplied criterion holds for it, category by exact
match, date by component-wise prefix match, amount by exact integer
match, and an absent criterion is a wildcard. -/
def matchesCriteria (category date : Option String) (price : Option Int)
    (r : Record) : Bool :=
  (match category with | none => true | some c => c == r.category) &&
  (match date with | none => true | some q => datePartsMatch r.date q) &&
  (match price with | none => true | some p => p == r.price)

/-- Sample record used by concrete witnesses: the income record of the
scenario in the spec. -/
def salaryRec : Record := ⟨"2024-05-02", Income, 30000, "Salary"⟩

/-- Sample record used by concrete witnesses: the expense record of the
scenario in the spec. -/
def groceriesRec : Record := ⟨"2024-05-03", Expense, 1500, "Groceries"⟩

/-- Sample record used by concrete witnesses: an expense record in a
different month. -/
def juneRec : Record := ⟨"2024-06-10", Expense, 200, "Bus"⟩

/-- Sample record list used by concrete witnesses. -/
def demoRecords : List Record := [salaryRec, groceriesRec, juneRec]

/-- Helper: converting a record to its persisted field bag and back is the
identity, for every list of records. -/
theorem stored_roundtrip (rs : List Record) :
    (rs.map Record.toStored).map StoredRecord.toRecord = rs := by
  induction rs with
  | nil => rfl
  | cons r t ih => simp_all [Record.toStored, StoredRecord.toRecord]

/-- Helper: a nonnegative index below the length resolves to itself under
Python indexing. -/
theorem pythonIdx_natCast (n i : Nat) (h : i < n) :
    pythonIdx n (i : Int) = some ⟨i, h⟩ := by
  unfold pythonIdx
  rw [dif_pos ⟨Int.natCast_nonneg i, by simpa using h⟩]
  simp

/-- Helper: an index below -n or at least n resolves to no position under
Python indexing. -/
theorem pythonIdx_oob (n : Nat) (i : Int)
    (h : i < -(n : Int) ∨ (n : Int) ≤ i) : pythonIdx n i = none := by
  have h1 : ¬(0 ≤ i ∧ i.toNat < n) := by omega
  have h2 : ¬(i < 0 ∧ (-i).toNat ≤ n) := by omega
  unfold pythonIdx
  rw [dif_neg h1, dif_neg h2]

/-- C1: balance() returns the triple (balance, totalIncome, totalExpense)
with totalIncome the sum of amounts of Income records, totalExpense the
sum of amounts of Expense records and balance their difference; the empty
sequence yields (0, 0, 0); and after adding the Salary income of 30000
and the Groceries expense of 1500 to an empty store the triple is
(28500, 30000, 1500). -/
theorem display_balance_spec :
    (∀ rs : List Record,
      display_balance rs = (totalIncome rs - totalExpense rs, totalIncome rs, totalExpense rs)) ∧
    display_balance [] = (0, 0, 0) ∧
    display_balance
      (add_record (add_record [] "2024-05-02" Income 30000 "Salary")
        "2024-05-03" Expense 1500 "Groceries") = (28500, 30000, 1500) :=
  ⟨fun _ => rfl, rfl, by decide⟩

/-- C5: add appends the new record at the end, with index equal to the
previous length; the length grows by exactly one; every existing record
is unchanged; and no validation is performed: arbitrary argument values,
including a negative amount, are stored as given. -/
theorem add_record_appends (rs : List Record) (d c : String) (p : Int) (ds : String) :
    (add_record rs d c p ds).length = rs.length + 1 ∧
    (∀ i : Nat, i < rs.length → (add_record rs d c p ds)[i]? = rs[i]?) ∧
    (add_record rs d c p ds)[rs.length]? = some ⟨d, c, p, ds⟩ := by
  refine ⟨by simp [add_record], fun i hi => ?_, ?_⟩
  · simp [add_record, List.getElem?_append_left hi]
  · simp [add_record]

/-- Witness for C5 at a concrete input: adding the Groceries record with
a negative amount to the one-element demo store keeps the first record
and appends the new one at index 1. -/
theorem add_record_appends_witness :
    (add_record [salaryRec] "2024-05-03" Expense (-7) "Groceries").length = 2 ∧
    (add_record [salaryRec] "2024-05-03" Expense (-7) "Groceries")[0]? = some salaryRec ∧
    (add_record [salaryRec] "2024-05-03" Expense (-7) "Groceries")[1]? =
      some ⟨"2024-05-03", Expense, -7, "Groceries"⟩ := by
  have h := add_record_appends [salaryRec] "2024-05-03" Expense (-7) "Groceries"
  exact ⟨h.1, by simpa using h.2.1 0 (by decide), h.2.2⟩

/-- C9: a supplied amount criterion of 0 is falsy in Python, so the
amount filter is not applied at all and search with only the amount
criterion 0 returns every record, whatever its stored amount. -/
theorem search_price_zero_wildcard :
    ∀ rs : List Record, search_records rs none none (some 0) = rs := by
  intro rs
  induction rs with
  | nil => rfl
  | cons r t ih => simp [search_records, strTruthy, intTruthy, ih]

/-- C7: saving the current sequence and loading it into a fresh store
reproduces an identical sequence of records, same fields in the same
order. -/
theorem save_load_roundtrip (rs : List Record) :
    freshStore (save_data rs) = .ok rs := by
  simp [freshStore, save_data, load_data, stored_roundtrip rs]

/-- C8: load fails (with ReadError) exactly when the persisted storage
exists but is malformed; an absent storage file is not an error and
yields the empty record sequence. -/
theorem load_error_iff_malformed (s : Storage) (rs : List Record) :
    (load_data s rs = .error () ↔ s = .malformed) ∧
    load_data .absent rs = .ok [] := by
  constructor
  · cases s <;> simp [load_data]
  · rfl

/-- Witness for C8 at concrete inputs: malformed storage gives the error
and absent storage gives the empty sequence, starting from the demo
records. -/
theorem load_error_iff_malformed_witness :
    (load_data .malformed demoRecords = .error () ↔ Storage.malformed = .malformed) ∧
    load_data .absent demoRecords = .ok [] :=
  load_error_iff_malformed .malformed demoRecords

/-- C10: a successful load appends the stored records to the in-memory
sequence instead of replacing it, only the absent-file case resets the
sequence to empty, and therefore a second load over a non-empty in-memory
sequence duplicates the records rather than reproducing the stored
sequence. -/
theorem load_appends_duplicates (data : List StoredRecord) (rs : List Record) :
    load_data (.wellFormed data) rs = .ok (rs ++ data.map StoredRecord.toRecord) ∧
    load_data .absent rs = .ok [] ∧
    (rs ≠ [] →
      load_data (save_data rs) rs = .ok (rs ++ rs) ∧ rs ++ rs ≠ rs) := by
  refine ⟨rfl, rfl, fun hne => ⟨by simp [save_data, load_data, stored_roundtrip rs], ?_⟩⟩
  intro hcontra
  have hlen : (rs ++ rs).length = rs.length := congrArg List.length hcontra
  simp at hlen
  exact hne hlen

/-- Witness for C10 at a concrete input: loading the saved demo records
into a store that already holds them yields the records twice, which is
not the stored sequence. -/
theorem load_appends_duplicates_witness :
    demoRecords ≠ [] ∧
    load_data (save_data demoRecords) demoRecords = .ok (demoRecords ++ demoRecords) ∧
    demoRecords ++ demoRecords ≠ demoRecords := by
  have h := load_appends_duplicates [] demoRecords
  have h2 := h.2.2 (by decide)
  exact ⟨by decide, h2.1, h2.2⟩

/-- C2: for every record sequence and every supplied (hence non-empty,
truthy) date query string, search with only the date criterion returns
exactly the records for which, after splitting both the stored date and
the query on the dash, the leading components of the stored date equal
the query components in order. -/
theorem search_date_prefix (rs : List Record) (d : String) (hd : d ≠ "") :
    search_records rs none (some d) none =
      rs.filter (fun r =>
        (str_split r.date '-').take (str_split d '-').length == str_split d '-') := by
  induction rs with
  | nil => rfl
  | cons r t ih =>
      cases hm : datePartsMatch r.date d <;>
        simp_all [search_records, strTruthy, intTruthy, datePartsMatch, List.filter_cons]

/-- Witness for C2 at concrete inputs: on the demo records the month
query keeps the two May records, the year query keeps the whole year and
the full-date query keeps only that exact day. -/
theorem search_date_prefix_witness :
    ("2024-05" ≠ "") ∧
    search_records demoRecords none (some "2024-05") none =
      demoRecords.filter (fun r =>
        (str_split r.date '-').take (str_split "2024-05" '-').length ==
          str_split "2024-05" '-') ∧
    search_records demoRecords none (some "2024-05") none = [salaryRec, groceriesRec] ∧
    search_records demoRecords none (some "2024") none = demoRecords ∧
    search_records demoRecords none (some "2024-05-02") none = [salaryRec] :=
  ⟨by decide, search_date_prefix demoRecords "2024-05" (by decide),
   by decide, by decide, by decide⟩

/-- Helper for C6: over one record, search keeps the record exactly when
the spec-side predicate matchesCriteria accepts it, provided every
supplied criterion is truthy. -/
theorem search_step (r : Record) (t : List Record) (oc od : Option String) (op : Option Int)
    (hc : oc ≠ some "") (hd : od ≠ some "") (hp : op ≠ some 0) :
    search_records (r :: t) oc od op =
      if matchesCriteria oc od op r then r :: search_records t oc od op
      else search_records t oc od op := by
  rcases oc with _ | c <;> rcases od with _ | q <;> rcases op with _ | p <;>
    simp_all [search_records, matchesCriteria, strTruthy, intTruthy] <;>
    split_ifs <;> simp_all

/-- C6: for every combination of supplied criteria, each truthy, search
returns exactly the subsequence of records matching all supplied criteria
(category by exact match, date by component prefix match, amount by exact
integer match, absent criteria as wildcards), in original order, since it
equals List.filter of the conjunction predicate. -/
theorem search_filters (rs : List Record) (oc od : Option String) (op : Option Int)
    (hc : oc ≠ some "") (hd : od ≠ some "") (hp : op ≠ some 0) :
    search_records rs oc od op = rs.filter (matchesCriteria oc od op) := by
  induction rs with
  | nil => rfl
  | cons r t ih =>
      rw [search_step r t oc od op hc hd hp, List.filter_cons, ih]

/-- Witness for C6 at a concrete input: searching the demo records for
the Expense category returns exactly the two expense records, in their
original order. -/
theorem search_filters_witness :
    (some Expense ≠ some "") ∧
    search_records demoRecords (some Expense) none none =
      demoRecords.filter (matchesCriteria (some Expense) none none) ∧
    search_records demoRecords (some Expense) none none = [groceriesRec, juneRec] :=
  ⟨by decide,
   search_filters demoRecords (some Expense) none none (by decide) (by decide) (by decide),
   by decide⟩

/-- C3: for every in-bounds index i, edit succeeds and overwrites exactly
the fields whose supplied value is truthy, leaving every other field of
record i at its prior value; every record other than record i and the
length of the sequence are unchanged; in particular a supplied amount of
0 or a supplied empty description leaves the stored field at its prior
value. -/
theorem edit_in_bounds (rs : List Record) (i : Nat) (h : i < rs.length)
    (od oc : Option String) (op : Option Int) (ods : Option String) :
    edit_record rs (i : Int) od oc op ods = .ok (rs.set i
      { date := if strTruthy od then od.getD "" else (rs.get ⟨i, h⟩).date
        category := if strTruthy oc then oc.getD "" else (rs.get ⟨i, h⟩).category
        price := if intTruthy op then op.getD 0 else (rs.get ⟨i, h⟩).price
        description := if strTruthy ods then ods.getD "" else (rs.get ⟨i, h⟩).description }) ∧
    (edit_post rs (i : Int) od oc op ods).length = rs.length ∧
    (∀ j : Nat, j ≠ i → (edit_post rs (i : Int) od oc op ods)[j]? = rs[j]?) ∧
    (op = some 0 →
      (edit_post rs (i : Int) od oc op ods)[i]?.map Record.price =
        some (rs.get ⟨i, h⟩).price) ∧
    (ods = some "" →
      (edit_post rs (i : Int) od oc op ods)[i]?.map Record.description =
        some (rs.get ⟨i, h⟩).description) := by
  have hidx := pythonIdx_natCast rs.length i h
  have hmain : edit_record rs (i : Int) od oc op ods = .ok (rs.set i
      { date := if strTruthy od then od.getD "" else (rs.get ⟨i, h⟩).date
        category := if strTruthy oc then oc.getD "" else (rs.get ⟨i, h⟩).category
        price := if intTruthy op then op.getD 0 else (rs.get ⟨i, h⟩).price
        description := if strTruthy ods then ods.getD "" else (rs.get ⟨i, h⟩).description }) := by
    simp only [edit_record, hidx]
    rcases od with _ | sd <;> rcases oc with _ | sc <;> rcases op with _ | sp <;>
      rcases ods with _ | sds <;> simp_all [strTruthy, intTruthy] <;>
      split_ifs <;> simp_all
  have hpost : edit_post rs (i : Int) od oc op ods = rs.set i
      { date := if strTruthy od then od.getD "" else (rs.get ⟨i, h⟩).date
        category := if strTruthy oc then oc.getD "" else (rs.get ⟨i, h⟩).category
        price := if intTruthy op then op.getD 0 else (rs.get ⟨i, h⟩).price
        description := if strTruthy ods then ods.getD "" else (rs.get ⟨i, h⟩).description } := by
    simp [edit_post, hmain]
  refine ⟨hmain, by simp [hpost], fun j hj => ?_, fun hz => ?_, fun he => ?_⟩
  · rw [hpost]
    exact List.getElem?_set_ne (fun hcontra => hj hcontra.symm)
  · rw [hpost, List.getElem?_set_self (by simpa using h)]
    simp [hz, intTruthy]
  · rw [hpost, List.getElem?_set_self (by simpa using h)]
    simp [he, strTruthy]

/-- Witness for C3 at a concrete input: editing record 1 of the demo
records with amount 0 and empty description changes nothing, and record 0
is untouched. -/
theorem edit_in_bounds_witness :
    ((1 : Nat) < demoRecords.length) ∧
    edit_post demoRecords ((1 : Nat) : Int) none none (some 0) (some "") = demoRecords ∧
    (edit_post demoRecords ((1 : Nat) : Int) none none (some 0) (some ""))[0]? =
      some salaryRec := by
  have hmain := (edit_in_bounds demoRecords 1 (by decide) none none (some 0) (some "")).1
  refine ⟨by decide, ?_, ?_⟩
  · simp only [edit_post, hmain]
    decide
  · simp only [edit_post, hmain]
    decide

/-- C4 (amended): for every index i with i at least the length or i below
the negated length, edit fails with IndexError and the record sequence is
left unmodified.  (The set of failing indices is amended: under Python
list indexing a negative index i with -length <= i < 0 is valid and
denotes the record at position length + i, so such negative indices do
NOT raise IndexError.) -/
theorem edit_oob (rs : List Record) (i : Int)
    (h : i < -(rs.length : Int) ∨ (rs.length : Int) ≤ i)
    (od oc : Option String) (op : Option Int) (ods : Option String) :
    edit_record rs i od oc op ods = .error () ∧
    edit_post rs i od oc op ods = rs := by
  have hp := pythonIdx_oob rs.length i h
  constructor <;> simp [edit_record, edit_post, hp]

/-- Witness for C4 (amended) at a concrete input: editing index 5 of the
three demo records raises IndexError and leaves the records as they
were. -/
theorem edit_oob_witness :
    ((5 : Int) < -(demoRecords.length : Int) ∨ (demoRecords.length : Int) ≤ 5) ∧
    edit_record demoRecords 5 (some "2025-01-01") none none none = .error () ∧
    edit_post demoRecords 5 (some "2025-01-01") none none none = demoRecords := by
  have h := edit_oob demoRecords 5 (by decide) (some "2025-01-01") none none none
  exact ⟨by decide, h.1, h.2⟩

/-- Counterexample to C4 as stated: the negative index -1 does not raise
IndexError; under Python list indexing it denotes the last record, so
editing index -1 of the three demo records succeeds and changes the
amount of the third record, leaving the sequence modified. -/
theorem edit_negative_index_succeeds :
    edit_record demoRecords (-1) none none (some 99) none ≠ .error () ∧
    edit_post demoRecords (-1) none none (some 99) none =
      [salaryRec, groceriesRec, { juneRec with price := 99 }] ∧
    edit_post demoRecords (-1) none none (some 99) none ≠ demoRecords := by
  refine ⟨?_, by decide, by decide⟩
  intro hcontra
  have hsame : edit_post demoRecords (-1) none none (some 99) none = demoRecords := by
    simp [edit_post, hcontra]
  have hne : edit_post demoRecords (-1) none none (some 99) none ≠ demoRecords := by decide
  exact hne hsame

end MyCash
